import Mathlib

/-!
Verification of the Observer-pattern notification core of
`src/behavioral/observer/Observer.ts`.

The embedding identifies an observer by its id string (`getId()` in the
source).  The behaviour of an observer's `update` / `updateAsync` is a
parameter `env : String → T → UpdateBeh`: for a payload it yields the list
of registration-set mutations the callback performs on the subject
(`addObserver` / `removeObserver` / `clearObservers`) and, optionally, the
error it throws (rejects with) after performing them.

A JavaScript `Set` keeps insertion order, so the registration set is a
duplicate-free `List String` maintained by `addObserver` below.  Both
`Set.prototype.forEach` (used by `Observable.notifyObservers`) and `for..of`
(used by `AsyncObservable.notifyObserversSequentially`) iterate the LIVE
set: an element appended by a callback before the iterator reaches its
position is visited by the same iteration, and an element deleted before
being visited is skipped.  That is modelled by `ObsState` (elements already
visited, in order, and elements still pending) together with `applyAction`.
Because a callback may delete and re-add entries forever, live iteration
can diverge in JavaScript; the model makes this explicit with a fuel
parameter, and theorems about complete runs assume enough fuel.

Results are typed `Except String _` so that "this call never throws to its
caller" is a statement about the code (the per-observer try/catch, modelled
by `catchLog`) rather than about the type.
-/

/-- Registration-set mutation an observer callback may perform on its
subject while being notified: the source's `addObserver`, `removeObserver`
and `clearObservers`. -/
inductive RegAction where
  | add (i : String)
  | remove (i : String)
  | clear
deriving DecidableEq, Repr

/-- Observable behaviour of one `update` / `updateAsync` call: the
registration mutations it performs, then the error it throws (`some msg`)
or normal return (`none`). -/
structure UpdateBeh where
  acts : List RegAction
  err : Option String
deriving DecidableEq, Repr

/-- Iterator state of a live `Set` iteration (`forEach` / `for..of`):
`visited` holds the elements already yielded, in order, `pending` the
remaining elements; the current set contents are `visited ++ pending`. -/
structure ObsState where
  visited : List String
  pending : List String
deriving DecidableEq, Repr

/-- Effect of one registration mutation on a live iteration, matching
JavaScript `Set` semantics: `add` of a present element is a no-op, `add`
of a new element appends it after the iterator position (so the current
iteration will still reach it), `delete` unlinks the element wherever it
is, `clear` empties the set (ending the iteration). -/
def applyAction (st : ObsState) : RegAction → ObsState
  | .add i =>
      if i ∈ st.visited ∨ i ∈ st.pending then st
      else { st with pending := st.pending ++ [i] }
  | .remove i => ⟨st.visited.erase i, st.pending.erase i⟩
  | .clear => ⟨[], []⟩

/-- Effect of one registration mutation on a plain set (no iterator in
progress), used for `AsyncObservable.notifyObservers` where the snapshot
`Array.from(this.observers)` is separate from the live set. -/
def applyActionList (l : List String) : RegAction → List String
  | .add i => if i ∈ l then l else l ++ [i]
  | .remove i => l.erase i
  | .clear => []

/-- Result of the raw `observer.update(data)` call: throws the recorded
error or returns normally. -/
def runUpdate (e : Option String) : Except String Unit :=
  match e with
  | some msg => .error msg
  | none => .ok ()

/-- Body of the source's `try { observer.update(data) } catch (error) {
console.error(...) }`: a thrown error is logged and swallowed, never
rethrown. -/
def catchLog (r : Except String Unit) : Except String Unit :=
  match r with
  | .ok _ => .ok ()
  | .error _ => .ok ()

/-- Live-set iteration of `Observable.notifyObservers`'s
`this.observers.forEach(observer => { try { observer.update(data) } catch
... })`.  Returns the invocation trace (which observer was called with
which payload, in order) and the final registration set. -/
def notifyLoop {T : Type} (env : String → T → UpdateBeh) (x : T) :
    Nat → ObsState → Except String (List (String × T) × List String)
  | 0, st => .ok ([], st.visited ++ st.pending)
  | fuel+1, st =>
    match st.pending with
    | [] => .ok ([], st.visited)
    | h :: rest =>
      let beh := env h x
      let st1 := beh.acts.foldl applyAction ⟨st.visited ++ [h], rest⟩
      match catchLog (runUpdate beh.err) with
      | .error e => .error e
      | .ok _ =>
        match notifyLoop env x fuel st1 with
        | .error e => .error e
        | .ok (tr, fin) => .ok ((h, x) :: tr, fin)

/-- `Observable.addObserver`: `Set.prototype.add`, appends if absent. -/
def Observable.addObserver (s : List String) (o : String) : List String :=
  if o ∈ s then s else s ++ [o]

/-- `Observable.removeObserver`: `Set.prototype.delete`, no-op if absent. -/
def Observable.removeObserver (s : List String) (o : String) : List String :=
  s.erase o

/-- `Observable.notifyObservers(data)`. -/
def Observable.notifyObservers {T : Type} (env : String → T → UpdateBeh)
    (x : T) (fuel : Nat) (s : List String) :
    Except String (List (String × T) × List String) :=
  notifyLoop env x fuel ⟨[], s⟩

/-- `Observable.getObserverCount`: `this.observers.size`. -/
def Observable.getObserverCount (s : List String) : Nat :=
  s.length

/-- `Observable.hasObserver`: `this.observers.has(observer)`. -/
def Observable.hasObserver (s : List String) (o : String) : Bool :=
  s.contains o

/-- `Observable.clearObservers`: `this.observers.clear()`. -/
def Observable.clearObservers (_s : List String) : List String :=
  []

/-- Scheduling event of an asynchronous notification: an observer's
`updateAsync` invocation starting, that invocation reaching completion
(fulfilment or, caught, rejection), and the whole notify call's own
promise resolving. -/
inductive Ev where
  | start (i : String)
  | done (i : String)
  | complete
deriving DecidableEq, Repr

/-- `AsyncObservable.addObserver`. -/
def AsyncObservable.addObserver (s : List String) (o : String) : List String :=
  if o ∈ s then s else s ++ [o]

/-- `AsyncObservable.removeObserver`. -/
def AsyncObservable.removeObserver (s : List String) (o : String) : List String :=
  s.erase o

/-- `Promise.all`: rejects with the first component rejection, otherwise
fulfils with the list of results once every component has settled. -/
def promiseAll : List (Except String Unit) → Except String (List Unit)
  | [] => .ok []
  | t :: ts =>
    match t with
    | .error e => .error e
    | .ok u =>
      match promiseAll ts with
      | .error e => .error e
      | .ok us => .ok (u :: us)

/-- Outcome of `AsyncObservable.notifyObservers`: the snapshot of observers
whose `updateAsync` was started, the scheduling trace, and the registration
set after all callback mutations. -/
structure ParOut where
  started : List String
  trace : List Ev
  newSet : List String
deriving DecidableEq, Repr

/-- `AsyncObservable.notifyObservers(data)`: takes the snapshot
`Array.from(this.observers)`, starts every observer's wrapped
`updateAsync` (each `async observer => { try { await ... } catch ... }`),
then `await Promise.all(...)`.  Completion order of the concurrent
invocations is chosen by the scheduler and is passed in as `order`;
the call's own promise resolves only after every task has settled. -/
def AsyncObservable.notifyObservers {T : Type} (env : String → T → UpdateBeh)
    (x : T) (s : List String) (order : List String) : Except String ParOut :=
  let snap := s
  let tasks := snap.map (fun i => catchLog (runUpdate (env i x).err))
  match promiseAll tasks with
  | .error e => .error e
  | .ok _ =>
    .ok { started := snap
          trace := snap.map Ev.start ++ order.map Ev.done ++ [Ev.complete]
          newSet := snap.foldl (fun l i => (env i x).acts.foldl applyActionList l) s }

/-- Live-set loop of `AsyncObservable.notifyObserversSequentially`'s
`for (const observer of this.observers) { try { await observer.updateAsync(data) }
catch ... }`: each invocation is awaited to completion before the next
entry is taken from the iterator.  Returns the scheduling trace and the
final registration set. -/
def seqLoop {T : Type} (env : String → T → UpdateBeh) (x : T) :
    Nat → ObsState → Except String (List Ev × List String)
  | 0, st => .ok ([], st.visited ++ st.pending)
  | fuel+1, st =>
    match st.pending with
    | [] => .ok ([], st.visited)
    | h :: rest =>
      let beh := env h x
      let st1 := beh.acts.foldl applyAction ⟨st.visited ++ [h], rest⟩
      match catchLog (runUpdate beh.err) with
      | .error e => .error e
      | .ok _ =>
        match seqLoop env x fuel st1 with
        | .error e => .error e
        | .ok (tr, fin) => .ok (Ev.start h :: Ev.done h :: tr, fin)

/-- `AsyncObservable.notifyObserversSequentially(data)`. -/
def AsyncObservable.notifyObserversSequentially {T : Type}
    (env : String → T → UpdateBeh) (x : T) (fuel : Nat) (s : List String) :
    Except String (List Ev × List String) :=
  seqLoop env x fuel ⟨[], s⟩

/-- Checks that a scheduling trace is a sequence of immediately completed
invocations: each `start` is followed at once by the matching `done`
before any other invocation starts (one observer in flight at a time). -/
def oneAtATime : List Ev → Bool
  | [] => true
  | Ev.start i :: Ev.done j :: rest => i == j && oneAtATime rest
  | _ => false

/-- Event record of the source's `Event` interface; `data` is the
caller-supplied opaque payload, `timestamp` the `new Date()` clock value,
`source` the optional origin tag. -/
structure Event (D : Type) where
  type : String
  data : D
  timestamp : Nat
  source : Option String
deriving DecidableEq, Repr

/-- Text a JavaScript template literal produces for an optional string:
the string itself, or "undefined" for an absent value. -/
def sourceText : Option String → String
  | some s => s
  | none => "undefined"

/-- `EventEmitter.emit(type, data, source)`: builds the event record with a
fresh timestamp and hands it to `notifyObservers`. -/
def EventEmitter.emit {D : Type} (env : String → Event D → UpdateBeh)
    (fuel : Nat) (s : List String) (ty : String) (d : D)
    (src : Option String) (now : Nat) :
    Except String (List (String × Event D) × List String) :=
  Observable.notifyObservers env ⟨ty, d, now, src⟩ fuel s

/-- `EventFilter.update(event)`: when `event.type` is in the allow-set,
logs and re-emits the event on the owned downstream emitter with the
source re-tagged as `filtered-${event.source}`; otherwise does nothing.
The filter's id appears only in the console log, which is not modelled;
the result is the downstream notification trace and the downstream
registration set. -/
def EventFilter.update {D : Type} (env : String → Event D → UpdateBeh)
    (fuel : Nat) (_filterId : String) (allowedTypes : List String)
    (downstream : List String) (e : Event D) (now : Nat) :
    Except String (List (String × Event D) × List String) :=
  if allowedTypes.contains e.type then
    EventEmitter.emit env fuel downstream e.type e.data
      (some ("filtered-" ++ sourceText e.source)) now
  else
    .ok ([], downstream)

/-- Concrete environment for the snapshot-semantics counterexample:
observer "a" registers a new observer "c" while being notified; every
other observer leaves the set alone; nobody throws. -/
def envC4 : String → Nat → UpdateBeh :=
  fun i _ => if i = "a" then ⟨[RegAction.add "c"], none⟩ else ⟨[], none⟩

/-- Concrete environment for witnesses: every observer is healthy and
leaves the registration set alone. -/
def envPure {T : Type} : String → T → UpdateBeh :=
  fun _ _ => ⟨[], none⟩

/-- Concrete environment for the error-isolation witness: observer "a"
always throws (rejects), every other observer is healthy; nobody mutates
the registration set. -/
def envThrowA {T : Type} : String → T → UpdateBeh :=
  fun i _ => if i = "a" then ⟨[], some "boom"⟩ else ⟨[], none⟩

/-! Helper lemmas shared by the claim theorems. -/

@[simp]
theorem catchLog_ok (r : Except String Unit) : catchLog r = .ok () := by
  cases r <;> rfl

theorem notifyLoop_isOk {T : Type} (env : String → T → UpdateBeh) (x : T) :
    ∀ (fuel : Nat) (st : ObsState),
      ∃ tr fin, notifyLoop env x fuel st = .ok (tr, fin) := by
  intro fuel
  induction fuel with
  | zero => intro st; exact ⟨_, _, rfl⟩
  | succ n ih =>
    intro st
    match hp : st.pending with
    | [] => exact ⟨[], st.visited, by simp [notifyLoop, hp]⟩
    | h :: rest =>
      obtain ⟨tr, fin, hrec⟩ :=
        ih ((env h x).acts.foldl applyAction ⟨st.visited ++ [h], rest⟩)
      exact ⟨(h, x) :: tr, fin, by simp [notifyLoop, hp, hrec]⟩

theorem notifyLoop_pure {T : Type} (env : String → T → UpdateBeh) (x : T) :
    ∀ (pend vis : List String) (fuel : Nat),
      (∀ i ∈ pend, (env i x).acts = []) → pend.length ≤ fuel →
      notifyLoop env x fuel ⟨vis, pend⟩ =
        .ok (pend.map (fun i => (i, x)), vis ++ pend) := by
  intro pend
  induction pend with
  | nil =>
    intro vis fuel _ _
    cases fuel with
    | zero => simp [notifyLoop]
    | succ n => simp [notifyLoop]
  | cons h rest ih =>
    intro vis fuel hacts hfuel
    cases fuel with
    | zero => simp at hfuel
    | succ n =>
      have hh : (env h x).acts = [] := hacts h (List.mem_cons_self _ _)
      have hrest : ∀ i ∈ rest, (env i x).acts = [] :=
        fun i hi => hacts i (List.mem_cons_of_mem _ hi)
      have hlen : rest.length ≤ n := Nat.succ_le_succ_iff.mp hfuel
      simp [notifyLoop, hh, ih (vis ++ [h]) n hrest hlen]

theorem seqLoop_ok_oneAtATime {T : Type} (env : String → T → UpdateBeh) (x : T) :
    ∀ (fuel : Nat) (st : ObsState),
      ∃ tr fin, seqLoop env x fuel st = .ok (tr, fin) ∧ oneAtATime tr = true := by
  intro fuel
  induction fuel with
  | zero => intro st; exact ⟨_, _, rfl, rfl⟩
  | succ n ih =>
    intro st
    match hp : st.pending with
    | [] => exact ⟨[], st.visited, by simp [seqLoop, hp], rfl⟩
    | h :: rest =>
      obtain ⟨tr, fin, hrec, hone⟩ :=
        ih ((env h x).acts.foldl applyAction ⟨st.visited ++ [h], rest⟩)
      exact ⟨Ev.start h :: Ev.done h :: tr, fin,
        by simp [seqLoop, hp, hrec], by simp [oneAtATime, hone]⟩

theorem seqLoop_pure {T : Type} (env : String → T → UpdateBeh) (x : T) :
    ∀ (pend vis : List String) (fuel : Nat),
      (∀ i ∈ pend, (env i x).acts = []) → pend.length ≤ fuel →
      seqLoop env x fuel ⟨vis, pend⟩ =
        .ok ((pend.map (fun i => [Ev.start i, Ev.done i])).flatten, vis ++ pend) := by
  intro pend
  induction pend with
  | nil =>
    intro vis fuel _ _
    cases fuel with
    | zero => simp [seqLoop]
    | succ n => simp [seqLoop]
  | cons h rest ih =>
    intro vis fuel hacts hfuel
    cases fuel with
    | zero => simp at hfuel
    | succ n =>
      have hh : (env h x).acts = [] := hacts h (List.mem_cons_self _ _)
      have hrest : ∀ i ∈ rest, (env i x).acts = [] :=
        fun i hi => hacts i (List.mem_cons_of_mem _ hi)
      have hlen : rest.length ≤ n := Nat.succ_le_succ_iff.mp hfuel
      simp [seqLoop, hh, ih (vis ++ [h]) n hrest hlen]

theorem promiseAll_replicate :
    ∀ n : Nat, promiseAll (List.replicate n (.ok ())) = .ok (List.replicate n ()) := by
  intro n
  induction n with
  | zero => rfl
  | succ k ih => simp [List.replicate_succ, promiseAll, ih]

theorem count_one_of_nodup {α : Type} [BEq α] [LawfulBEq α] :
    ∀ {l : List α} {a : α}, l.Nodup → a ∈ l → l.count a = 1 := by
  intro l
  induction l with
  | nil => intro a _ ha; cases ha
  | cons b t ih =>
    intro a hnd ha
    obtain ⟨hbt, hnt⟩ := List.nodup_cons.mp hnd
    rcases List.mem_cons.mp ha with rfl | hat
    · have : t.count a = 0 := List.count_eq_zero.mpr hbt
      simp [List.count_cons, this]
    · have hab : a ≠ b := fun h => hbt (h ▸ hat)
      simp [List.count_cons, hab, ih hnt hat]

theorem foldl_noActs {T : Type} (env : String → T → UpdateBeh) (x : T) :
    ∀ (l s : List String), (∀ i ∈ l, (env i x).acts = []) →
      l.foldl (fun acc i => (env i x).acts.foldl applyActionList acc) s = s := by
  intro l
  induction l with
  | nil => intro s _; rfl
  | cons h t ih =>
    intro s hl
    have hh : (env h x).acts = [] := hl h (List.mem_cons_self _ _)
    simp only [List.foldl_cons, hh, List.foldl_nil]
    exact ih s fun i hi => hl i (List.mem_cons_of_mem _ hi)

/-! Claim theorems. -/

/-- Claim C1: for every registration set and every payload, a call to the
sync `Observable.notifyObservers`, the parallel
`AsyncObservable.notifyObservers` or the sequential
`AsyncObservable.notifyObserversSequentially` never throws (respectively
never rejects) to its caller, whatever errors the observers raise: each
invocation returns `Except.ok`. -/
theorem C1_notify_never_throws {T : Type}
    (env envA : String → T → UpdateBeh) (x : T) (fuel : Nat)
    (s order : List String) :
    (∃ tr fin, Observable.notifyObservers env x fuel s = .ok (tr, fin)) ∧
    (∃ out, AsyncObservable.notifyObservers envA x s order = .ok out) ∧
    (∃ tr fin,
      AsyncObservable.notifyObserversSequentially envA x fuel s = .ok (tr, fin)) := by
  refine ⟨notifyLoop_isOk env x fuel ⟨[], s⟩, ?_, ?_⟩
  · have htasks : (s.map fun i => catchLog (runUpdate (envA i x).err))
        = List.replicate s.length (.ok ()) := by simp
    unfold AsyncObservable.notifyObservers
    simp only [htasks, promiseAll_replicate]
    exact ⟨_, rfl⟩
  · obtain ⟨tr, fin, h, _⟩ := seqLoop_ok_oneAtATime envA x fuel ⟨[], s⟩
    exact ⟨tr, fin, h⟩

/-- Claim C2: with two registered observers, the first of which throws
(rejects) on update while neither mutates the registration set, the
second, healthy observer still receives the notification in all three
delivery modes; the failing observer's error is caught per observer. -/
theorem C2_error_isolation {T : Type} (env envA : String → T → UpdateBeh)
    (x : T) (a b : String) (fuel : Nat) (order : List String)
    (hfa : (env a x).acts = []) (hfb : (env b x).acts = [])
    (hthrows : (env a x).err.isSome = true)
    (haA : (envA a x).acts = []) (hbA : (envA b x).acts = [])
    (hrejects : (envA a x).err.isSome = true)
    (hfuel : 2 ≤ fuel) :
    Observable.notifyObservers env x fuel [a, b] = .ok ([(a, x), (b, x)], [a, b]) ∧
    AsyncObservable.notifyObserversSequentially envA x fuel [a, b] =
      .ok ([Ev.start a, Ev.done a, Ev.start b, Ev.done b], [a, b]) ∧
    (∃ out, AsyncObservable.notifyObservers envA x [a, b] order = .ok out ∧
      b ∈ out.started) := by
  have hpS : ∀ i ∈ [a, b], (env i x).acts = [] := by
    intro i hi
    rcases List.mem_cons.mp hi with rfl | hi2
    · exact hfa
    · rcases List.mem_cons.mp hi2 with rfl | hi3
      · exact hfb
      · cases hi3
  have hpA : ∀ i ∈ [a, b], (envA i x).acts = [] := by
    intro i hi
    rcases List.mem_cons.mp hi with rfl | hi2
    · exact haA
    · rcases List.mem_cons.mp hi2 with rfl | hi3
      · exact hbA
      · cases hi3
  have hlen : ([a, b] : List String).length ≤ fuel := by simpa using hfuel
  refine ⟨?_, ?_, ?_⟩
  · have := notifyLoop_pure env x [a, b] [] fuel hpS hlen
    simpa [Observable.notifyObservers] using this
  · have := seqLoop_pure envA x [a, b] [] fuel hpA hlen
    simpa [AsyncObservable.notifyObserversSequentially] using this
  · have htasks : (([a, b] : List String).map fun i => catchLog (runUpdate (envA i x).err))
        = List.replicate ([a, b] : List String).length (.ok ()) := by simp
    unfold AsyncObservable.notifyObservers
    simp only [htasks, promiseAll_replicate]
    exact ⟨_, rfl, by simp⟩

/-- Claim C3: on a sync notifier whose observers do not mutate the
registration set, `notifyObservers(x)` invokes each of the N registered
observers exactly once, with exactly the payload `x`, regardless of the
errors any observer throws (`env` carries arbitrary `err` values). -/
theorem C3_fanout_completeness {T : Type} [DecidableEq T]
    (env : String → T → UpdateBeh) (x : T) (fuel : Nat) (s : List String)
    (hpure : ∀ i ∈ s, (env i x).acts = [])
    (hfuel : s.length ≤ fuel) (hnd : s.Nodup) :
    Observable.notifyObservers env x fuel s = .ok (s.map (fun i => (i, x)), s) ∧
    ∀ i ∈ s, ((s.map (fun j => (j, x))).map Prod.fst).count i = 1 := by
  constructor
  · have := notifyLoop_pure env x s [] fuel hpure hfuel
    simpa [Observable.notifyObservers] using this
  · intro i hi
    have hids : (s.map (fun j => (j, x))).map Prod.fst = s := by
      rw [List.map_map]
      simp [Function.comp_def]
    rw [hids]
    exact count_one_of_nodup hnd hi

/-- Claim C4 counterexample: the sync `notifyObservers` iterates the LIVE
set (`Set.prototype.forEach`), not a snapshot.  With observers "a" and "b"
registered and observer "a" registering a new observer "c" during its
`update` (environment `envC4`), the current `notify` call also invokes
"c", although "c" was not registered when the call started — refuting the
claimed snapshot semantics. -/
theorem C4_counterexample :
    Observable.notifyObservers envC4 0 5 ["a", "b"] =
      .ok ([("a", 0), ("b", 0), ("c", 0)], ["a", "b", "c"]) ∧
    ¬ ("c" ∈ (["a", "b"] : List String)) :=
  ⟨rfl, by decide⟩

/-- Claim C4 (amended): the sync `notifyObservers` iterates the live
registration set, so a mutation performed by an observer's `update` DOES
affect the current call: if the first observer adds a fresh observer `c`
(and no other callback mutates the set), `c` is appended after the
iterator position and receives the current notification too; the final
set also contains `c`. -/
theorem C4_live_iteration_amended {T : Type} (env : String → T → UpdateBeh)
    (x : T) (a c : String) (rest : List String) (fuel : Nat)
    (hadd : (env a x).acts = [RegAction.add c])
    (hrest : ∀ i ∈ rest, (env i x).acts = [])
    (hc : (env c x).acts = [])
    (hcnot : ¬ (c ∈ a :: rest))
    (hfuel : rest.length + 2 ≤ fuel) :
    Observable.notifyObservers env x fuel (a :: rest) =
      .ok ((a, x) :: (rest ++ [c]).map (fun i => (i, x)), a :: (rest ++ [c])) := by
  obtain ⟨k, rfl⟩ : ∃ k, fuel = k + 1 := ⟨fuel - 1, by omega⟩
  have hk : (rest ++ [c]).length ≤ k := by simp; omega
  have hca : c ≠ a := fun h => hcnot (h ▸ List.mem_cons_self _ _)
  have hcr : c ∉ rest := fun h => hcnot (List.mem_cons_of_mem _ h)
  have hst1 : (env a x).acts.foldl applyAction ⟨[a], rest⟩ = ⟨[a], rest ++ [c]⟩ := by
    simp [hadd, applyAction, hca, hcr]
  have hpure : ∀ i ∈ rest ++ [c], (env i x).acts = [] := by
    intro i hi
    rcases List.mem_append.mp hi with h1 | h1
    · exact hrest i h1
    · rcases List.mem_singleton.mp h1 with rfl
      exact hc
  have hrec := notifyLoop_pure env x (rest ++ [c]) [a] k hpure hk
  unfold Observable.notifyObservers
  simp [notifyLoop, hst1, hrec]

/-- Claim C5: the parallel `AsyncObservable.notifyObservers` invokes
exactly the observers in the snapshot `Array.from(this.observers)` taken
at call start — the statement holds for every environment `env`, hence
for arbitrary additions and removals performed by the observers'
`updateAsync` callbacks — and its own promise (the final `Ev.complete`)
resolves only after every snapshot observer's invocation has reached
completion, whatever completion order the scheduler picks. -/
theorem C5_parallel_snapshot {T : Type} (env : String → T → UpdateBeh)
    (x : T) (s order : List String) (hord : order.Perm s) :
    ∃ out, AsyncObservable.notifyObservers env x s order = .ok out ∧
      out.started = s ∧
      ∃ pre, out.trace = pre ++ [Ev.complete] ∧ ∀ i ∈ s, Ev.done i ∈ pre := by
  have htasks : (s.map fun i => catchLog (runUpdate (env i x).err))
      = List.replicate s.length (.ok ()) := by simp
  unfold AsyncObservable.notifyObservers
  simp only [htasks, promiseAll_replicate]
  refine ⟨_, rfl, rfl, s.map Ev.start ++ order.map Ev.done, ?_, ?_⟩
  · simp
  · intro i hi
    exact List.mem_append_right _ (List.mem_map.mpr ⟨i, hord.mem_iff.mpr hi, rfl⟩)

/-- Claim C6: the sequential `notifyObserversSequentially` runs strictly
one observer at a time: its scheduling trace is always an alternation in
which each `start` is immediately followed by the matching `done` before
any other invocation starts (`oneAtATime`), and when no callback mutates
the registration set the trace is exactly the per-observer
`start`/`done` blocks in iteration order. -/
theorem C6_sequential_one_at_a_time {T : Type} (env : String → T → UpdateBeh)
    (x : T) (fuel : Nat) (s : List String) :
    (∃ tr fin, AsyncObservable.notifyObserversSequentially env x fuel s = .ok (tr, fin) ∧
      oneAtATime tr = true) ∧
    ((∀ i ∈ s, (env i x).acts = []) → s.length ≤ fuel →
      AsyncObservable.notifyObserversSequentially env x fuel s =
        .ok ((s.map (fun i => [Ev.start i, Ev.done i])).flatten, s)) := by
  constructor
  · exact seqLoop_ok_oneAtATime env x fuel ⟨[], s⟩
  · intro hp hf
    have := seqLoop_pure env x s [] fuel hp hf
    simpa [AsyncObservable.notifyObserversSequentially] using this

/-- Claim C7: an `EventFilter` with a fixed allow-set forwards an incoming
event whose type is in the allow-set as exactly one derived event on its
downstream emitter — every (non-mutating) downstream observer is invoked
exactly once, with an event whose `type` and `data` equal the incoming
event's — and silently drops an event whose type is not in the allow-set:
no downstream observer is invoked and no error is raised. -/
theorem C7_filter_correctness {D : Type} (env : String → Event D → UpdateBeh)
    (fuel : Nat) (fid : String) (allowed downstream : List String)
    (e : Event D) (now : Nat)
    (hpure : ∀ i ev, (env i ev).acts = [])
    (hfuel : downstream.length ≤ fuel) (hnd : downstream.Nodup) :
    (allowed.contains e.type = true →
      ∃ ev, EventFilter.update env fuel fid allowed downstream e now =
          .ok (downstream.map (fun i => (i, ev)), downstream) ∧
        ev.type = e.type ∧ ev.data = e.data ∧
        ∀ i ∈ downstream,
          ((downstream.map (fun j => (j, ev))).map Prod.fst).count i = 1) ∧
    (allowed.contains e.type = false →
      EventFilter.update env fuel fid allowed downstream e now =
        .ok ([], downstream)) := by
  constructor
  · intro hin
    have hin2 : e.type ∈ allowed := by simpa using hin
    refine ⟨⟨e.type, e.data, now, some ("filtered-" ++ sourceText e.source)⟩, ?_, rfl, rfl, ?_⟩
    · have := notifyLoop_pure env ⟨e.type, e.data, now, some ("filtered-" ++ sourceText e.source)⟩
        downstream [] fuel (fun i hi => hpure i _) hfuel
      simp [EventFilter.update, hin2, EventEmitter.emit, Observable.notifyObservers, this]
    · intro i hi
      have hids : (downstream.map (fun j => (j, (⟨e.type, e.data, now,
          some ("filtered-" ++ sourceText e.source)⟩ : Event D)))).map Prod.fst = downstream := by
        rw [List.map_map]
        simp [Function.comp_def]
      rw [hids]
      exact count_one_of_nodup hnd hi
  · intro hout
    have hout2 : e.type ∉ allowed := by simpa using hout
    simp [EventFilter.update, hout2]

/-- Claim C8 counterexample: the derived event an `EventFilter` publishes
downstream re-tags the source as the constant prefix "filtered-" applied
to the incoming event's source, NOT as something prefixed with the
filter's own identity: a filter constructed with id "flt1" forwarding an
allowed "error" event with source "orig" emits source "filtered-orig",
which does not start with "flt1" (prefix testing is on the underlying
character lists). -/
theorem C8_counterexample :
    EventFilter.update (fun _ _ => (⟨[], none⟩ : UpdateBeh)) 1 "flt1"
        ["error", "warning"] ["d"] (⟨"error", (7 : Nat), 0, some "orig"⟩ : Event Nat) 5 =
      .ok ([("d", ⟨"error", 7, 5, some "filtered-orig"⟩)], ["d"]) ∧
    "flt1".data.isPrefixOf "filtered-orig".data = false :=
  ⟨rfl, by decide⟩

/-- Claim C8 (amended): for every incoming event whose type is in the
allow-set, the derived event published downstream keeps the incoming
`type` and `data` and re-tags the source as `filtered-` followed by the
incoming event's source text ("undefined" when absent); the filter's
identity `fid` does not occur in the derived event — the result below
does not depend on `fid` at all. -/
theorem C8_source_retag_amended {D : Type} (env : String → Event D → UpdateBeh)
    (fuel : Nat) (fid : String) (allowed downstream : List String)
    (e : Event D) (now : Nat)
    (hin : allowed.contains e.type = true)
    (hpure : ∀ i ev, (env i ev).acts = [])
    (hfuel : downstream.length ≤ fuel) :
    EventFilter.update env fuel fid allowed downstream e now =
      .ok (downstream.map
          (fun i => (i, ⟨e.type, e.data, now, some ("filtered-" ++ sourceText e.source)⟩)),
        downstream) := by
  have hin2 : e.type ∈ allowed := by simpa using hin
  have := notifyLoop_pure env ⟨e.type, e.data, now, some ("filtered-" ++ sourceText e.source)⟩
    downstream [] fuel (fun i hi => hpure i _) hfuel
  simp [EventFilter.update, hin2, EventEmitter.emit, Observable.notifyObservers, this]

/-- Claim C9: registration is idempotent by identity and removal of an
absent observer is a total no-op, on the sync and the async notifier
alike: adding the same observer twice equals adding it once (so two adds
from an o-free state raise the count by exactly 1, not 2), and removing
an absent observer leaves the set unchanged (and, being a total
function, cannot throw). -/
theorem C9_registration_idempotent (s : List String) (o : String) :
    (Observable.addObserver (Observable.addObserver s o) o
        = Observable.addObserver s o) ∧
    (o ∉ s → Observable.getObserverCount (Observable.addObserver s o)
        = Observable.getObserverCount s + 1) ∧
    (o ∉ s → Observable.removeObserver s o = s) ∧
    (AsyncObservable.addObserver (AsyncObservable.addObserver s o) o
        = AsyncObservable.addObserver s o) ∧
    (o ∉ s → (AsyncObservable.addObserver s o).length = s.length + 1) ∧
    (o ∉ s → AsyncObservable.removeObserver s o = s) := by
  refine ⟨?_, ?_, ?_, ?_, ?_, ?_⟩
  · by_cases ho : o ∈ s <;> simp [Observable.addObserver, ho]
  · intro ho
    simp [Observable.addObserver, ho, Observable.getObserverCount]
  · intro ho
    exact List.erase_of_not_mem ho
  · by_cases ho : o ∈ s <;> simp [AsyncObservable.addObserver, ho]
  · intro ho
    simp [AsyncObservable.addObserver, ho]
  · intro ho
    exact List.erase_of_not_mem ho

/-- Claim C10 (implicit frame condition): when no observer callback
mutates the registration set, none of the three notification operations
changes it — the final set each returns equals the initial one; only
`addObserver`, `removeObserver` and `clearObservers` mutate the set. -/
theorem C10_notify_preserves_set {T : Type} (env envA : String → T → UpdateBeh)
    (x : T) (fuel : Nat) (s order : List String)
    (hS : ∀ i ∈ s, (env i x).acts = [])
    (hA : ∀ i ∈ s, (envA i x).acts = [])
    (hfuel : s.length ≤ fuel) :
    (∃ tr, Observable.notifyObservers env x fuel s = .ok (tr, s)) ∧
    (∃ out, AsyncObservable.notifyObservers envA x s order = .ok out ∧
      out.newSet = s) ∧
    (∃ tr, AsyncObservable.notifyObserversSequentially env x fuel s = .ok (tr, s)) := by
  refine ⟨?_, ?_, ?_⟩
  · have := notifyLoop_pure env x s [] fuel hS hfuel
    exact ⟨_, by simpa [Observable.notifyObservers] using this⟩
  · have htasks : (s.map fun i => catchLog (runUpdate (envA i x).err))
        = List.replicate s.length (.ok ()) := by simp
    unfold AsyncObservable.notifyObservers
    simp only [htasks, promiseAll_replicate]
    exact ⟨_, rfl, foldl_noActs envA x s s hA⟩
  · have := seqLoop_pure env x s [] fuel hS hfuel
    exact ⟨_, by simpa [AsyncObservable.notifyObserversSequentially] using this⟩

/-! Witnesses: each applies its claim theorem at concrete inputs. -/

/-- Witness for C2 at observers "a" (throwing) and "b" (healthy). -/
theorem C2_error_isolation_witness :
    Observable.notifyObservers (envThrowA : String → Nat → UpdateBeh) 0 2 ["a", "b"] =
      .ok ([("a", 0), ("b", 0)], ["a", "b"]) ∧
    AsyncObservable.notifyObserversSequentially (envThrowA : String → Nat → UpdateBeh) 0 2 ["a", "b"] =
      .ok ([Ev.start "a", Ev.done "a", Ev.start "b", Ev.done "b"], ["a", "b"]) ∧
    (∃ out, AsyncObservable.notifyObservers (envThrowA : String → Nat → UpdateBeh) 0 ["a", "b"] ["b", "a"] =
      .ok out ∧ "b" ∈ out.started) :=
  C2_error_isolation envThrowA envThrowA 0 "a" "b" 2 ["b", "a"]
    (by decide) (by decide) (by decide) (by decide) (by decide) (by decide) (by decide)

/-- Witness for C3 at two healthy observers. -/
theorem C3_fanout_witness :
    Observable.notifyObservers (envPure : String → Nat → UpdateBeh) 0 2 ["a", "b"] =
      .ok ((["a", "b"] : List String).map (fun i => (i, (0 : Nat))), ["a", "b"]) ∧
    ∀ i ∈ (["a", "b"] : List String),
      (((["a", "b"] : List String).map (fun j => (j, (0 : Nat)))).map Prod.fst).count i = 1 :=
  C3_fanout_completeness envPure 0 2 ["a", "b"] (fun _ _ => rfl) (by decide) (by decide)

/-- Witness for the amended C4: observer "a" adds "c" mid-notification
and "c" is visited by the same call. -/
theorem C4_live_iteration_witness :
    Observable.notifyObservers envC4 0 5 ["a", "b"] =
      .ok (("a", 0) :: ((["b"] ++ ["c"]).map (fun i => (i, (0 : Nat)))), "a" :: (["b"] ++ ["c"])) :=
  C4_live_iteration_amended envC4 0 "a" "c" ["b"] 5
    (by decide) (by decide) (by decide) (by decide) (by decide)

/-- Witness for C5 with completion order reversed from start order. -/
theorem C5_parallel_snapshot_witness :
    ∃ out, AsyncObservable.notifyObservers (envPure : String → Nat → UpdateBeh) 0 ["a", "b"] ["b", "a"] =
        .ok out ∧
      out.started = ["a", "b"] ∧
      ∃ pre, out.trace = pre ++ [Ev.complete] ∧
        ∀ i ∈ (["a", "b"] : List String), Ev.done i ∈ pre :=
  C5_parallel_snapshot envPure 0 ["a", "b"] ["b", "a"] (by decide)

/-- Witness for C6 at two healthy observers. -/
theorem C6_sequential_witness :
    (∃ tr fin, AsyncObservable.notifyObserversSequentially (envPure : String → Nat → UpdateBeh) 0 2 ["a", "b"] =
        .ok (tr, fin) ∧ oneAtATime tr = true) ∧
    AsyncObservable.notifyObserversSequentially (envPure : String → Nat → UpdateBeh) 0 2 ["a", "b"] =
      .ok (((["a", "b"] : List String).map (fun i => [Ev.start i, Ev.done i])).flatten, ["a", "b"]) :=
  ⟨(C6_sequential_one_at_a_time envPure 0 2 ["a", "b"]).1,
   (C6_sequential_one_at_a_time envPure 0 2 ["a", "b"]).2 (fun _ _ => rfl) (by decide)⟩

/-- Witness for C7: an "error" event passes the allow-set and reaches
the single downstream observer exactly once; an "info" event is
dropped. -/
theorem C7_filter_witness :
    (∃ ev, EventFilter.update (envPure : String → Event Nat → UpdateBeh) 1 "flt1"
          ["error", "warning"] ["d"] (⟨"error", (7 : Nat), 0, some "orig"⟩ : Event Nat) 5 =
        .ok ((["d"] : List String).map (fun i => (i, ev)), ["d"]) ∧
      ev.type = "error" ∧ ev.data = 7 ∧
      ∀ i ∈ (["d"] : List String),
        (((["d"] : List String).map (fun j => (j, ev))).map Prod.fst).count i = 1) ∧
    EventFilter.update (envPure : String → Event Nat → UpdateBeh) 1 "flt1"
        ["error", "warning"] ["d"] (⟨"info", (7 : Nat), 0, some "orig"⟩ : Event Nat) 5 =
      .ok ([], ["d"]) :=
  ⟨(C7_filter_correctness envPure 1 "flt1" ["error", "warning"] ["d"]
      ⟨"error", 7, 0, some "orig"⟩ 5 (fun _ _ => rfl) (by decide) (by decide)).1 (by decide),
   (C7_filter_correctness envPure 1 "flt1" ["error", "warning"] ["d"]
      ⟨"info", 7, 0, some "orig"⟩ 5 (fun _ _ => rfl) (by decide) (by decide)).2 (by decide)⟩

/-- Witness for the amended C8: the forwarded event's source is
"filtered-orig", independent of the filter id "flt1". -/
theorem C8_source_retag_witness :
    EventFilter.update (envPure : String → Event Nat → UpdateBeh) 1 "flt1"
        ["error", "warning"] ["d"] (⟨"error", (7 : Nat), 0, some "orig"⟩ : Event Nat) 5 =
      .ok ((["d"] : List String).map
          (fun i => (i, ⟨"error", 7, 5, some ("filtered-" ++ sourceText (some "orig"))⟩)), ["d"]) :=
  C8_source_retag_amended envPure 1 "flt1" ["error", "warning"] ["d"]
    ⟨"error", 7, 0, some "orig"⟩ 5 (by decide) (fun _ _ => rfl) (by decide)

/-- Witness for C9 at the one-element set holding "x" and observer "y". -/
theorem C9_registration_witness :
    (Observable.addObserver (Observable.addObserver ["x"] "y") "y"
        = Observable.addObserver ["x"] "y") ∧
    Observable.getObserverCount (Observable.addObserver ["x"] "y")
        = Observable.getObserverCount ["x"] + 1 ∧
    Observable.removeObserver ["x"] "y" = ["x"] ∧
    (AsyncObservable.addObserver (AsyncObservable.addObserver ["x"] "y") "y"
        = AsyncObservable.addObserver ["x"] "y") ∧
    (AsyncObservable.addObserver ["x"] "y").length = (["x"] : List String).length + 1 ∧
    AsyncObservable.removeObserver ["x"] "y" = ["x"] :=
  ⟨(C9_registration_idempotent ["x"] "y").1,
   (C9_registration_idempotent ["x"] "y").2.1 (by decide),
   (C9_registration_idempotent ["x"] "y").2.2.1 (by decide),
   (C9_registration_idempotent ["x"] "y").2.2.2.1,
   (C9_registration_idempotent ["x"] "y").2.2.2.2.1 (by decide),
   (C9_registration_idempotent ["x"] "y").2.2.2.2.2 (by decide)⟩

/-- Witness for C10 at two healthy observers. -/
theorem C10_frame_witness :
    (∃ tr, Observable.notifyObservers (envPure : String → Nat → UpdateBeh) 0 2 ["a", "b"] =
      .ok (tr, ["a", "b"])) ∧
    (∃ out, AsyncObservable.notifyObservers (envPure : String → Nat → UpdateBeh) 0 ["a", "b"] ["b", "a"] =
      .ok out ∧ out.newSet = ["a", "b"]) ∧
    (∃ tr, AsyncObservable.notifyObserversSequentially (envPure : String → Nat → UpdateBeh) 0 2 ["a", "b"] =
      .ok (tr, ["a", "b"])) :=
  C10_notify_preserves_set envPure envPure 0 2 ["a", "b"] ["b", "a"]
    (fun _ _ => rfl) (fun _ _ => rfl) (by decide)
